import Mathlib

/-!
Shallow embedding of the contact-book program (`task1.py`): field validators
(`Phone.__init__`, `Birthday.__init__`), `Record` with its phone and birthday
operations, and `AddressBook.get_upcoming_birthdays`, together with the date
arithmetic of Python's `datetime` that these functions rely on
(`strptime("%d.%m.%Y")`, `date.replace(year=...)`, `date.weekday()`,
`timedelta` subtraction and `strftime("%d.%m.%Y")`).

Python exceptions are modelled with `Except`; mutating `Record` methods return
`Except (PyErr × Record) Record`, where an error carries the state of the
record at the moment the exception escapes, so that atomicity statements are
meaningful.
-/

set_option autoImplicit false

/-- Every `raise` in `task1.py` raises `ValueError` with a message; the
program defines no exception subclasses, so errors are distinguished by their
message text only. -/
inductive PyErr where
  | valueError (msg : String)
deriving DecidableEq

instance {ε α : Type} [DecidableEq ε] [DecidableEq α] : DecidableEq (Except ε α) := by
  intro a b
  cases a <;> cases b
  case error.error e f =>
    exact if h : e = f then .isTrue (by rw [h]) else .isFalse (by intro hc; cases hc; exact h rfl)
  case error.ok e f => exact .isFalse (by intro hc; cases hc)
  case ok.error e f => exact .isFalse (by intro hc; cases hc)
  case ok.ok e f =>
    exact if h : e = f then .isTrue (by rw [h]) else .isFalse (by intro hc; cases hc; exact h rfl)

/-- Message of `Phone.__init__` (task1.py line 26). -/
def phoneMsg : String := "Номер телефону повинен містити рівно 10 цифр."

/-- Message of `Birthday.__init__` (task1.py line 38). -/
def birthdayMsg : String := "Дата має бути у форматі DD.MM.YYYY"

/-- Message of `Record.edit_phone` when the old number is absent (line 65). -/
def oldPhoneMsg : String := "Старий номер не знайдено."

/-- Message of `datetime.date.replace` / the `date` constructor when the day
does not exist in the target month ("day is out of range for month"). -/
def replaceMsg : String := "day is out of range for month"

/-- Message of `datetime.date.replace` when the target year leaves 1..9999. -/
def yearRangeMsg (y : Nat) : String := "year " ++ toString y ++ " is out of range"

/-- Message of `datetime.strptime` on text that does not match the format.
CPython formats the offending text and pattern into the message; only the fact
that a `ValueError` is raised matters to any theorem below. -/
def strptimeMsg (s : String) : String :=
  "time data " ++ s ++ " does not match format %d.%m.%Y"

/-- ASCII decimal digit `0`..`9`. -/
def isAsciiDigitChar (c : Char) : Bool := 48 ≤ c.toNat && c.toNat ≤ 57

/-- Character test of Python's `str.isdigit`: true for characters with the
Unicode digit property. Besides ASCII `0`..`9` this includes, among others,
the superscript and subscript digits and the decimal digits of other scripts.
Python derives the set from the Unicode character database; this model
enumerates the ranges relevant to this development (the full table extends to
further scripts with the same status). -/
def isPyDigitChar (c : Char) : Bool :=
  isAsciiDigitChar c
  || c.toNat == 178 || c.toNat == 179 || c.toNat == 185      -- ² ³ ¹
  || c.toNat == 8304                                          -- ⁰
  || (8308 ≤ c.toNat && c.toNat ≤ 8313)                       -- ⁴..⁹
  || (8320 ≤ c.toNat && c.toNat ≤ 8329)                       -- ₀..₉
  || (1632 ≤ c.toNat && c.toNat ≤ 1641)                       -- Arabic-Indic
  || (2406 ≤ c.toNat && c.toNat ≤ 2415)                       -- Devanagari
  || (65296 ≤ c.toNat && c.toNat ≤ 65305)                     -- fullwidth

/-- Python's `str.isdigit`: every character is a digit and the string is
non-empty. -/
def pyIsDigit (s : String) : Bool :=
  !s.toList.isEmpty && s.toList.all isPyDigitChar

/-- `Phone.__init__` (task1.py lines 24-27): raises `ValueError` unless
`value.isdigit()` holds and `len(value) == 10`; otherwise stores the string
unchanged as `self.value`. -/
def mkPhone (s : String) : Except PyErr String :=
  if !pyIsDigit s || s.length != 10 then .error (.valueError phoneMsg)
  else .ok s

/-- Numeric value of an ASCII digit character. -/
def digitVal (c : Char) : Nat := c.toNat - 48

/-- Value of a string of ASCII digits, most significant first (what Python's
`int` does on the all-ASCII-digit groups captured by `_strptime`). -/
def natOfDigits (l : List Char) : Nat := l.foldl (fun a c => 10 * a + digitVal c) 0

/-- Prepend a character to the first segment of a segment list. -/
def consHead (c : Char) : List (List Char) → List (List Char)
  | [] => [[c]]
  | h :: t => (c :: h) :: t

/-- Split a character list at every `.`; the result is always non-empty and
its segments contain no dot. `x.y.z` gives `[x, y, z]`. -/
def splitDots : List Char → List (List Char)
  | [] => [[]]
  | c :: rest => if c = '.' then [] :: splitDots rest else consHead c (splitDots rest)

/-- Inverse of `splitDots`: interleave the segments with `.`. -/
def joinDots : List (List Char) → List Char
  | [] => []
  | [x] => x
  | x :: xs => x ++ '.' :: joinDots xs

/-- Day group of CPython's `_strptime` for `%d`: the regular expression
`3[01]|[12]\d|0[1-9]|[1-9]`, i.e. one digit `1`..`9` or two digits with value
1..31 (so `01`..`09` are allowed and `00` is not). Zero padding is optional. -/
def dayFormOk : List Char → Bool
  | [c] => isAsciiDigitChar c && c ≠ '0'
  | [c1, c2] =>
      isAsciiDigitChar c1 && isAsciiDigitChar c2 &&
        (1 ≤ 10 * digitVal c1 + digitVal c2) && (10 * digitVal c1 + digitVal c2 ≤ 31)
  | _ => false

/-- Month group of `_strptime` for `%m`: `1[0-2]|0[1-9]|[1-9]`, i.e. one digit
`1`..`9` or two digits with value 1..12. -/
def monthFormOk : List Char → Bool
  | [c] => isAsciiDigitChar c && c ≠ '0'
  | [c1, c2] =>
      isAsciiDigitChar c1 && isAsciiDigitChar c2 &&
        (1 ≤ 10 * digitVal c1 + digitVal c2) && (10 * digitVal c1 + digitVal c2 ≤ 12)
  | _ => false

/-- Year group of `_strptime` for `%Y`: exactly four digits. -/
def yearFormOk (l : List Char) : Bool :=
  l.length == 4 && l.all isAsciiDigitChar

/-- Proleptic-Gregorian leap-year rule, as in Python's `calendar.isleap` /
`datetime`. -/
def isLeap (y : Nat) : Bool := y % 4 == 0 && (y % 100 != 0 || y % 400 == 0)

/-- Length of a month, as in `datetime`. -/
def daysInMonth (y m : Nat) : Nat :=
  if m = 2 then (if isLeap y then 29 else 28)
  else if m = 4 ∨ m = 6 ∨ m = 9 ∨ m = 11 then 30
  else 31

/-- Field check of the `datetime.date` constructor: `MINYEAR = 1`,
`MAXYEAR = 9999`, month 1..12, day 1..length of the month. -/
def validDate (y m d : Nat) : Bool :=
  1 ≤ y && y ≤ 9999 && 1 ≤ m && m ≤ 12 && 1 ≤ d && d ≤ daysInMonth y m

/-- A calendar date as `datetime.date` holds it. Validity is not built into
the type; the program only ever constructs validated dates. -/
structure Date where
  year : Nat
  month : Nat
  day : Nat
deriving DecidableEq

/-- `datetime.strptime(s, "%d.%m.%Y")` restricted to ASCII text, returning the
parsed date, or `none` where Python raises `ValueError`. CPython matches the
anchored pattern `(3[01]|[12]\d|0[1-9]|[1-9])\.(1[0-2]|0[1-9]|[1-9])\.(\d{4})`
against the whole string, converts the three groups with `int`, and feeds them
to the `datetime` constructor, which re-raises for impossible dates such as
31.02.2024. The digit classes cannot consume a dot and the two literal dots
cannot match anything else, so matching is exactly: split at the dots, require
three segments of the shapes above, then range-check the date. (CPython
compiles `\d` with Unicode semantics, so certain strings with non-ASCII
decimal digits in the `\d` positions also parse; the theorems below only
instantiate ASCII strings and state their general forms for ASCII input.) -/
def parseDMY (s : String) : Option Date :=
  match splitDots s.toList with
  | [dp, mp, yp] =>
      if dayFormOk dp && monthFormOk mp && yearFormOk yp then
        let d := natOfDigits dp
        let m := natOfDigits mp
        let y := natOfDigits yp
        if validDate y m d then some ⟨y, m, d⟩ else none
      else none
  | _ => none

/-- `Birthday.__init__` (task1.py lines 33-38): runs
`datetime.strptime(value, "%d.%m.%Y")` purely as a check, stores the RAW
string as `self.value` on success, and converts any `ValueError` into its own
fixed message. -/
def mkBirthday (s : String) : Except PyErr String :=
  match parseDMY s with
  | some _ => .ok s
  | none => .error (.valueError birthdayMsg)

/-- One contact (`Record`, task1.py lines 42-79): a name, the stored phone
values in insertion order (each `Phone.value`), and the raw string of the
stored `Birthday`, if any. -/
structure Record where
  name : String
  phones : List String
  birthday : Option String
deriving DecidableEq

/-- `Record.find_phone` (lines 67-71): first stored phone whose value equals
the argument string. -/
def Record.find_phone (r : Record) (p : String) : Option String :=
  r.phones.find? (fun v => v == p)

/-- `Record.add_phone` (lines 50-52): validates via `Phone(phone)` and appends.
There is no duplicate check. A validation failure escapes before the append,
so the error carries the unchanged record. -/
def Record.add_phone (r : Record) (p : String) : Except (PyErr × Record) Record :=
  match mkPhone p with
  | .error e => .error (e, r)
  | .ok v => .ok { r with phones := r.phones ++ [v] }

/-- Remove the first occurrence of a value from a list (what
`list.remove(obj)` does to the found `Phone` object: the object returned by
`find_phone` is the first element holding that value). -/
def removeFirst (l : List String) (p : String) : List String :=
  match l with
  | [] => []
  | x :: xs => if x = p then xs else x :: removeFirst xs p

/-- `Record.remove_phone` (lines 54-57) called with a STRING argument:
removes the first phone with that value, no-op when absent. -/
def Record.remove_phone (r : Record) (p : String) : Record :=
  match r.find_phone p with
  | some v => { r with phones := removeFirst r.phones v }
  | none => r

/-- `find_phone` as it runs when `edit_phone` passes it the found `Phone`
OBJECT instead of a string (line 63): the loop compares `p.value == phone`,
a `str` against a `Phone` instance; `str.__eq__` returns `NotImplemented` and
`Phone` defines no `__eq__`, so the comparison is `False` for every element
and the scan never matches. -/
def Record.find_phone_by_obj (r : Record) : Option String :=
  r.phones.find? (fun _ => false)

/-- `remove_phone` as invoked from `edit_phone` with the `Phone` object:
`find_phone` returns `None` (see `Record.find_phone_by_obj`), the `if` guard
fails, and nothing is removed. -/
def Record.remove_phone_by_obj (r : Record) : Record :=
  match r.find_phone_by_obj with
  | some v => { r with phones := removeFirst r.phones v }
  | none => r

/-- `Record.edit_phone` (lines 59-65): looks up `old_phone`; when absent,
raises `ValueError` with `oldPhoneMsg`; when present, first runs
`add_phone(new_phone)` (so an invalid new number raises inside the `Phone`
constructor before any list mutation), then calls `remove_phone(phone_obj)`
with the `Phone` object, which removes nothing (see
`Record.remove_phone_by_obj`). -/
def Record.edit_phone (r : Record) (old p : String) : Except (PyErr × Record) Record :=
  match r.find_phone old with
  | none => .error (.valueError oldPhoneMsg, r)
  | some _ =>
      match r.add_phone p with
      | .error e => .error e
      | .ok r1 => .ok r1.remove_phone_by_obj

/-- `Record.add_birthday` (lines 73-74): `self.birthday = Birthday(birthday)`;
on a validation failure the assignment is never executed. -/
def Record.add_birthday (r : Record) (s : String) : Except PyErr Record :=
  match mkBirthday s with
  | .error e => .error e
  | .ok v => .ok { r with birthday := some v }

/-- Phone part of `Record.__str__` (line 77): values joined with `; `, or the
placeholder when the list is empty. -/
def phonesText (ps : List String) : String :=
  match ps with
  | [] => "немає номерів"
  | _ => String.intercalate "; " ps

/-- Birthday part of `Record.__str__` (line 78): the raw stored string, or the
placeholder. -/
def birthdayText (b : Option String) : String :=
  match b with
  | some v => v
  | none => "немає"

/-- `Record.__str__` (lines 76-79). -/
def Record.render (r : Record) : String :=
  "Контакт: " ++ r.name ++ ", телефони: " ++ phonesText r.phones ++
    ", день народження: " ++ birthdayText r.birthday

/-- Days from before year 1 to the start of month `m` of year `y`. -/
def daysBeforeMonth (y m : Nat) : Nat :=
  (List.range (m - 1)).foldl (fun a i => a + daysInMonth y (i + 1)) 0

/-- Python's `date.toordinal`: day count in the proleptic Gregorian calendar
with `date(1, 1, 1).toordinal() == 1`. -/
def toordinal (dt : Date) : Nat :=
  365 * (dt.year - 1) + (dt.year - 1) / 4 + (dt.year - 1) / 400 - (dt.year - 1) / 100
    + daysBeforeMonth dt.year dt.month + dt.day

/-- Python's `date.weekday()`: Monday = 0 .. Sunday = 6; day 1 (01.01.0001) is
a Monday. -/
def weekday (dt : Date) : Nat := (toordinal dt + 6) % 7

/-- Python date comparison: lexicographic on (year, month, day). -/
def dateLt (a b : Date) : Bool :=
  a.year < b.year || (a.year == b.year &&
    (a.month < b.month || (a.month == b.month && a.day < b.day)))

/-- `(a - b).days` for Python dates. -/
def dateSub (a b : Date) : Int := (toordinal a : Int) - (toordinal b : Int)

/-- `d + timedelta(days=1)` on a month/day-valid date. -/
def nextDay (dt : Date) : Date :=
  if dt.day < daysInMonth dt.year dt.month then ⟨dt.year, dt.month, dt.day + 1⟩
  else if dt.month < 12 then ⟨dt.year, dt.month + 1, 1⟩
  else ⟨dt.year + 1, 1, 1⟩

/-- The loop `while bday_this_year.weekday() >= 5: bday_this_year +=
timedelta(days=1)` (lines 114-115), with step fuel. Successive days advance
the weekday by one modulo 7, so from a Saturday the loop runs twice and from a
Sunday once; 7 steps of fuel therefore always suffice on the calendar dates
the program reaches, and the fueled form equals the unbounded loop there. -/
def shiftLoop : Nat → Date → Date
  | 0, dt => dt
  | fuel + 1, dt => if 5 ≤ weekday dt then shiftLoop fuel (nextDay dt) else dt

/-- Weekend shift of lines 114-115: move a Saturday or Sunday forward to the
next Monday. -/
def shiftWeekend (dt : Date) : Date := shiftLoop 7 dt

/-- `date.replace(year=y)`: re-runs the `date` constructor's field checks on
the new year; raises `ValueError` when the year leaves 1..9999 or the day does
not exist in that month of the target year (only 29.02 can become invalid). -/
def replaceYear (dt : Date) (y : Nat) : Except PyErr Date :=
  if y < 1 ∨ 9999 < y then .error (.valueError (yearRangeMsg y))
  else if daysInMonth y dt.month < dt.day then .error (.valueError replaceMsg)
  else .ok ⟨y, dt.month, dt.day⟩

/-- Lines 105-108: `bday.replace(year=today.year)`, then, when the result
precedes `today`, `replace(year=today.year + 1)`. -/
def nextOccurrence (bd today : Date) : Except PyErr Date :=
  match replaceYear bd today.year with
  | .error e => .error e
  | .ok c0 => if dateLt c0 today then replaceYear c0 (today.year + 1) else .ok c0

/-- Zero-padded two-digit decimal (the `%d` and `%m` fields of `strftime`). -/
def digitChar (n : Nat) : Char :=
  match n % 10 with
  | 0 => '0' | 1 => '1' | 2 => '2' | 3 => '3' | 4 => '4'
  | 5 => '5' | 6 => '6' | 7 => '7' | 8 => '8' | _ => '9'

/-- Two-digit zero-padded rendering of `n ≤ 99`. -/
def pad2 (n : Nat) : String := String.mk [digitChar (n / 10), digitChar n]

/-- Four-digit zero-padded rendering of `n ≤ 9999`. -/
def pad4 (n : Nat) : String :=
  String.mk [digitChar (n / 1000), digitChar (n / 100), digitChar (n / 10), digitChar n]

/-- `date.strftime("%d.%m.%Y")` (line 119). Day and month are zero-padded
two-digit fields. CPython delegates `%Y` to the platform C library, whose
zero padding of years below 1000 varies by platform; all dates the theorems
below touch have four-digit years, where every platform agrees with `pad4`. -/
def pyFormatDMY (dt : Date) : String :=
  pad2 dt.day ++ "." ++ pad2 dt.month ++ "." ++ pad4 dt.year

/-- Body of the `for record in self.data.values()` loop of
`get_upcoming_birthdays` (lines 100-120) for one record: skip records without
a birthday; re-parse the stored birthday text; compute the next occurrence;
when the PRE-shift distance from `today` lies in `0..days`, shift a weekend
occurrence to Monday and emit `(name, formatted shifted date)`. Any
`ValueError` escapes the whole call. -/
def processRecord (today : Date) (days : Int) (r : Record) :
    Except PyErr (Option (String × String)) :=
  match r.birthday with
  | none => .ok none
  | some bs =>
      match parseDMY bs with
      | none => .error (.valueError (strptimeMsg bs))
      | some bd =>
          match nextOccurrence bd today with
          | .error e => .error e
          | .ok c =>
              if 0 ≤ dateSub c today ∧ dateSub c today ≤ days then
                .ok (some (r.name, pyFormatDMY (shiftWeekend c)))
              else .ok none

/-- `AddressBook.get_upcoming_birthdays` (lines 96-122) over the records of
the book in iteration order (a Python dict iterates in insertion order; the
book is modelled by its value list). The code reads `today` from
`datetime.today()` inside the function; the model passes that clock reading as
the explicit argument `today`. An exception from any record aborts the call
with no result list. -/
def get_upcoming_birthdays (book : List Record) (days : Int) (today : Date) :
    Except PyErr (List (String × String)) :=
  match book with
  | [] => .ok []
  | r :: rest =>
      match processRecord today days r with
      | .error e => .error e
      | .ok o =>
          match get_upcoming_birthdays rest days today with
          | .error e => .error e
          | .ok res =>
              .ok (match o with
                   | some p => p :: res
                   | none => res)

/-- Claim-side predicate (from the spec's words, for comparison with the
code): `S` consists of exactly ten ASCII decimal digits. -/
def tenAsciiDigits (s : String) : Bool :=
  s.length == 10 && s.toList.all isAsciiDigitChar

/-- Claim-side predicate (from the spec's words, for comparison with the
code): `S` matches the fixed zero-padded pattern `DD.MM.YYYY` — two-digit
day, two-digit month, four-digit year — and denotes a real calendar date. -/
def zeroPaddedForm (s : String) : Bool :=
  match s.toList with
  | [d1, d2, '.', m1, m2, '.', y1, y2, y3, y4] =>
      [d1, d2, m1, m2, y1, y2, y3, y4].all isAsciiDigitChar &&
        validDate (natOfDigits [y1, y2, y3, y4]) (natOfDigits [m1, m2]) (natOfDigits [d1, d2])
  | _ => false

/-- Claim-side candidate date (from the spec's words, §4.4 steps 1-3): the
birthday's month/day moved to `today`'s year, bumped to the next year when it
already passed, then shifted off a weekend to the following Monday. The
claim's window test compares THIS post-shift date against the window. -/
def specCandidate (bd today : Date) : Date :=
  let c0 : Date := ⟨today.year, bd.month, bd.day⟩
  let c1 : Date := if dateLt c0 today then ⟨today.year + 1, bd.month, bd.day⟩ else c0
  shiftWeekend c1

/-- Decidable form of "this record's stored birthday parses to a February 29
date" (such a date only parses in a leap year). -/
def hasFeb29 (r : Record) : Bool :=
  match r.birthday with
  | none => false
  | some bs =>
      match parseDMY bs with
      | none => false
      | some d => d.month == 2 && d.day == 29

/-! ## Helper lemmas -/

theorem find_phone_by_obj_none (r : Record) : r.find_phone_by_obj = none := by
  simp [Record.find_phone_by_obj, List.find?_eq_none]

theorem remove_phone_by_obj_id (r : Record) : r.remove_phone_by_obj = r := by
  simp [Record.remove_phone_by_obj, find_phone_by_obj_none]

theorem string_length_toList (s : String) : s.length = s.toList.length := rfl

theorem mkPhone_eq (s : String) :
    mkPhone s =
      if s.length = 10 ∧ s.toList.all isPyDigitChar = true then .ok s
      else .error (.valueError phoneMsg) := by
  rw [mkPhone]
  by_cases h2 : s.length = 10
  · rcases hall : s.toList.all isPyDigitChar with _ | _
    · have hc : (!pyIsDigit s || s.length != 10) = true := by
        rw [pyIsDigit, hall, Bool.and_false, Bool.not_false, Bool.true_or]
      rw [hc]
      exact (if_pos rfl).trans (if_neg (by simp [hall])).symm
    · have hne : s.toList.isEmpty = false := by
        rcases hl : s.toList with _ | ⟨c, cs⟩
        · exfalso
          rw [string_length_toList, hl] at h2
          simp at h2
        · rfl
      have hc : (!pyIsDigit s || s.length != 10) = false := by
        rw [pyIsDigit, hne, hall, h2]
        decide
      rw [hc]
      exact (if_neg (by simp)).trans (if_pos ⟨h2, rfl⟩).symm
  · have hb : (s.length != 10) = true := by simp [h2]
    have hc : (!pyIsDigit s || s.length != 10) = true := by rw [hb, Bool.or_true]
    rw [hc]
    exact (if_pos rfl).trans (if_neg (fun hcon => h2 hcon.1)).symm

/-! ## C2: adding an already-present phone -/

/-- C2 counterexample: the claim says `addPhone` on an already-present value
fails with `DuplicatePhoneError` and leaves the list unchanged; in the code
`add_phone` performs no duplicate check, so on a record already holding
`0501112233` the same value is accepted again and appended. -/
theorem add_phone_duplicate_succeeds :
    (Record.mk "Al" ["0501112233"] none).add_phone "0501112233"
      = .ok (Record.mk "Al" ["0501112233", "0501112233"] none) := by decide

/-- C2 amended: for every record and every format-valid phone string `p`,
even one already present in the phone list, `add_phone p` succeeds and
appends `p` at the end; no duplicate check exists. -/
theorem add_phone_no_duplicate_check (r : Record) (p : String)
    (hp : mkPhone p = .ok p) (_hmem : p ∈ r.phones) :
    r.add_phone p = .ok { r with phones := r.phones ++ [p] } := by
  rw [Record.add_phone, hp]

/-- Witness for `add_phone_no_duplicate_check` at a concrete record. -/
theorem add_phone_no_duplicate_check_witness :
    (Record.mk "Ann" ["0671112233"] none).add_phone "0671112233"
      = .ok (Record.mk "Ann" ["0671112233", "0671112233"] none) :=
  add_phone_no_duplicate_check (Record.mk "Ann" ["0671112233"] none) "0671112233"
    (by decide) (by decide)

/-! ## C3: `edit_phone` is atomic when the new number fails validation -/

/-- C3: for every prior record state and every old phone present in it, when
the new phone string fails validation the call fails and the record at the
moment the exception escapes equals the record before the call (the
`ValueError` is raised inside the `Phone` constructor, before the append). -/
theorem edit_phone_atomic_on_invalid_new (r : Record) (old p w : String) (e : PyErr)
    (hfind : r.find_phone old = some w) (hp : mkPhone p = .error e) :
    r.edit_phone old p = .error (e, r) := by
  rw [Record.edit_phone, hfind, Record.add_phone, hp]

/-- Witness for `edit_phone_atomic_on_invalid_new` at a concrete record. -/
theorem edit_phone_atomic_on_invalid_new_witness :
    (Record.mk "Xen" ["0501234567"] none).edit_phone "0501234567" "12345"
      = .error (.valueError phoneMsg, Record.mk "Xen" ["0501234567"] none) :=
  edit_phone_atomic_on_invalid_new (Record.mk "Xen" ["0501234567"] none)
    "0501234567" "12345" "0501234567" (.valueError phoneMsg) (by decide) (by decide)

/-! ## C4: the phone validator and ASCII -/

/-- C4 counterexample: the claim says construction succeeds only for ten
ASCII decimal digits, but Python's `str.isdigit` is Unicode-aware: a string
of ten SUPERSCRIPT TWO characters (U+00B2) is accepted by `Phone.__init__`
although it contains no ASCII digit. -/
theorem phone_accepts_nonascii_digits :
    mkPhone "²²²²²²²²²²" = .ok "²²²²²²²²²²" ∧
      tenAsciiDigits "²²²²²²²²²²" = false := by decide

/-- C4 amended: construction from `S` succeeds iff `S` has length 10 and
every character satisfies Python's `str.isdigit` character test (a proper
superset of the ASCII digits); on success the stored value is `S` itself, and
on failure the error is the `ValueError` with the phone message. -/
theorem phone_ok_iff_ten_py_digits (s : String) :
    ((mkPhone s).isOk = true ↔ (s.length = 10 ∧ s.toList.all isPyDigitChar = true)) ∧
    (∀ v, mkPhone s = .ok v → v = s) ∧
    ((mkPhone s).isOk = false → mkPhone s = .error (.valueError phoneMsg)) := by
  rw [mkPhone_eq s]
  by_cases h : s.length = 10 ∧ s.toList.all isPyDigitChar = true
  · rw [if_pos h]
    refine ⟨⟨fun _ => h, fun _ => rfl⟩, fun v hv => (Except.ok.inj hv).symm, fun hf => ?_⟩
    simp [Except.isOk, Except.toBool] at hf
  · rw [if_neg h]
    refine ⟨⟨fun hf => ?_, fun hc => absurd hc h⟩, fun v hv => ?_, fun _ => rfl⟩
    · simp [Except.isOk, Except.toBool] at hf
    · exact absurd hv (by simp)

/-- Witness for `phone_ok_iff_ten_py_digits` at a concrete valid number. -/
theorem phone_ok_iff_ten_py_digits_witness :
    (mkPhone "0501112233").isOk = true :=
  (phone_ok_iff_ten_py_digits "0501112233").1.mpr (by decide)

/-! ## C6: the no-duplicates invariant -/

/-- C6 counterexample: starting from a duplicate-free record, a successful
`edit_phone` leaves two copies of the new value, because the new number is
appended and the old `Phone` object is never actually removed. -/
theorem edit_phone_creates_duplicate :
    (Record.mk "Eve" ["0501112233"] none).edit_phone "0501112233" "0501112233"
      = .ok (Record.mk "Eve" ["0501112233", "0501112233"] none) ∧
    (Record.mk "Eve" ["0501112233", "0501112233"] none).phones.count "0501112233" = 2 := by
  decide

/-- C6 amended: `Record` operations do not enforce uniqueness. A successful
`edit_phone old p` appends `p` without removing anything, so whenever `p`
already occurs in the phone list the result holds at least two copies of
`p`. -/
theorem edit_phone_duplicate_when_new_present (r : Record) (old p w : String)
    (hfind : r.find_phone old = some w) (hp : mkPhone p = .ok p) (hmem : p ∈ r.phones) :
    r.edit_phone old p = .ok { r with phones := r.phones ++ [p] } ∧
      2 ≤ (r.phones ++ [p]).count p := by
  constructor
  · simp [Record.edit_phone, hfind, Record.add_phone, hp, remove_phone_by_obj_id]
  · rw [List.count_append]
    have h1 : 0 < r.phones.count p := List.count_pos_iff.mpr hmem
    have h2 : List.count p [p] = 1 := by simp
    omega

/-- Witness for `edit_phone_duplicate_when_new_present` at a concrete
record. -/
theorem edit_phone_duplicate_when_new_present_witness :
    (Record.mk "Ira" ["0931112233", "0951112233"] none).edit_phone "0931112233" "0951112233"
      = .ok (Record.mk "Ira" ["0931112233", "0951112233", "0951112233"] none) ∧
      2 ≤ (["0931112233", "0951112233"] ++ ["0951112233"]).count "0951112233" :=
  edit_phone_duplicate_when_new_present
    (Record.mk "Ira" ["0931112233", "0951112233"] none) "0931112233" "0951112233"
    "0931112233" (by decide) (by decide) (by decide)

/-! ## C8: what a successful `edit_phone` actually does -/

/-- C8: the claim (and the spec) says a successful `editPhone(old, new)`
removes `old`; evaluating the code at the failing input shows the old number
is still present afterwards, because `edit_phone` passes the found `Phone`
OBJECT to `remove_phone`, whose `p.value == phone` comparison between a `str`
and a `Phone` instance is always `False`, so nothing is removed. -/
theorem edit_phone_leaves_old_in_place :
    (Record.mk "Dan" ["1112223334"] none).edit_phone "1112223334" "9998887776"
      = .ok (Record.mk "Dan" ["1112223334", "9998887776"] none) ∧
    "1112223334" ∈ (Record.mk "Dan" ["1112223334", "9998887776"] none).phones := by
  decide

/-! ## Date-format lemmas -/

theorem daysInMonth_le_31 (y m : Nat) : daysInMonth y m ≤ 31 := by
  rw [daysInMonth]
  split
  · split <;> omega
  · split <;> omega

theorem consHead_ne_nil (c : Char) (ls : List (List Char)) : consHead c ls ≠ [] := by
  cases ls <;> simp [consHead]

theorem splitDots_ne_nil (l : List Char) : splitDots l ≠ [] := by
  cases l with
  | nil => simp [splitDots]
  | cons c rest =>
    simp only [splitDots]
    split
    · simp
    · exact consHead_ne_nil c _

theorem splitDots_append (a rest : List Char) (h : ∀ c ∈ a, c ≠ '.') :
    splitDots (a ++ '.' :: rest) = a :: splitDots rest := by
  induction a with
  | nil => simp [splitDots]
  | cons c a' ih =>
    have hc : c ≠ '.' := h c (List.mem_cons_self c a')
    rw [List.cons_append]
    simp only [splitDots]
    rw [if_neg hc, ih (fun x hx => h x (List.mem_cons_of_mem c hx))]
    simp [consHead]

theorem splitDots_nodot (l : List Char) (h : ∀ c ∈ l, c ≠ '.') : splitDots l = [l] := by
  induction l with
  | nil => simp [splitDots]
  | cons c a' ih =>
    have hc : c ≠ '.' := h c (List.mem_cons_self c a')
    simp only [splitDots]
    rw [if_neg hc, ih (fun x hx => h x (List.mem_cons_of_mem c hx))]
    simp [consHead]

theorem digitVal_digitChar (n : Nat) : digitVal (digitChar n) = n % 10 := by
  have h10 : n % 10 = 0 ∨ n % 10 = 1 ∨ n % 10 = 2 ∨ n % 10 = 3 ∨ n % 10 = 4 ∨ n % 10 = 5 ∨
      n % 10 = 6 ∨ n % 10 = 7 ∨ n % 10 = 8 ∨ n % 10 = 9 := by omega
  rcases h10 with h|h|h|h|h|h|h|h|h|h <;> unfold digitChar <;> rw [h] <;> decide

theorem isAsciiDigitChar_digitChar (n : Nat) : isAsciiDigitChar (digitChar n) = true := by
  have h10 : n % 10 = 0 ∨ n % 10 = 1 ∨ n % 10 = 2 ∨ n % 10 = 3 ∨ n % 10 = 4 ∨ n % 10 = 5 ∨
      n % 10 = 6 ∨ n % 10 = 7 ∨ n % 10 = 8 ∨ n % 10 = 9 := by omega
  rcases h10 with h|h|h|h|h|h|h|h|h|h <;> unfold digitChar <;> rw [h] <;> decide

theorem ascii_ne_dot (c : Char) (h : isAsciiDigitChar c = true) : c ≠ '.' := by
  intro hc
  rw [hc] at h
  exact absurd h (by decide)

theorem pad2_toList (n : Nat) : (pad2 n).toList = [digitChar (n / 10), digitChar n] := rfl

theorem pad4_toList (n : Nat) :
    (pad4 n).toList = [digitChar (n / 1000), digitChar (n / 100), digitChar (n / 10), digitChar n] :=
  rfl

theorem pad2_nodot (n : Nat) : ∀ c ∈ (pad2 n).toList, c ≠ '.' := by
  rw [pad2_toList]
  intro c hc
  rcases List.mem_pair.mp (by simpa using hc) with rfl | rfl <;>
    exact ascii_ne_dot _ (isAsciiDigitChar_digitChar _)

theorem pad4_nodot (n : Nat) : ∀ c ∈ (pad4 n).toList, c ≠ '.' := by
  rw [pad4_toList]
  intro c hc
  simp only [List.mem_cons, List.not_mem_nil, or_false] at hc
  rcases hc with rfl | rfl | rfl | rfl <;>
    exact ascii_ne_dot _ (isAsciiDigitChar_digitChar _)

theorem natOfDigits_two (c1 c2 : Char) :
    natOfDigits [c1, c2] = 10 * digitVal c1 + digitVal c2 := by
  simp only [natOfDigits, List.foldl]
  omega

theorem natOfDigits_four (c1 c2 c3 c4 : Char) :
    natOfDigits [c1, c2, c3, c4] =
      1000 * digitVal c1 + 100 * digitVal c2 + 10 * digitVal c3 + digitVal c4 := by
  simp only [natOfDigits, List.foldl]
  omega

theorem natOfDigits_pad2 (n : Nat) (h : n ≤ 99) : natOfDigits (pad2 n).toList = n := by
  rw [pad2_toList, natOfDigits_two, digitVal_digitChar, digitVal_digitChar]
  omega

theorem natOfDigits_pad4 (n : Nat) (h : n ≤ 9999) : natOfDigits (pad4 n).toList = n := by
  rw [pad4_toList, natOfDigits_four, digitVal_digitChar, digitVal_digitChar,
    digitVal_digitChar, digitVal_digitChar]
  omega

theorem dayFormOk_pad2 (n : Nat) (h1 : 1 ≤ n) (h2 : n ≤ 31) :
    dayFormOk (pad2 n).toList = true := by
  rw [pad2_toList]
  simp only [dayFormOk, isAsciiDigitChar_digitChar, digitVal_digitChar, Bool.true_and,
    Bool.and_eq_true, decide_eq_true_eq]
  constructor <;> omega

theorem monthFormOk_pad2 (n : Nat) (h1 : 1 ≤ n) (h2 : n ≤ 12) :
    monthFormOk (pad2 n).toList = true := by
  rw [pad2_toList]
  simp only [monthFormOk, isAsciiDigitChar_digitChar, digitVal_digitChar, Bool.true_and,
    Bool.and_eq_true, decide_eq_true_eq]
  constructor <;> omega

theorem yearFormOk_pad4 (n : Nat) : yearFormOk (pad4 n).toList = true := by
  rw [pad4_toList]
  simp [yearFormOk, isAsciiDigitChar_digitChar]

theorem string_data_append (a b : String) : (a ++ b).data = a.data ++ b.data := by
  rcases a with ⟨la⟩
  rcases b with ⟨lb⟩
  rfl

theorem parseDMY_pad (y m d : Nat) (hv : validDate y m d = true) :
    parseDMY (pad2 d ++ "." ++ pad2 m ++ "." ++ pad4 y) = some ⟨y, m, d⟩ := by
  have hvP := hv
  simp only [validDate, Bool.and_eq_true, decide_eq_true_eq] at hvP
  obtain ⟨⟨⟨⟨⟨hy1, hy2⟩, hm1⟩, hm2⟩, hd1⟩, hd2⟩ := hvP
  have hd31 : d ≤ 31 := le_trans hd2 (daysInMonth_le_31 y m)
  have hdata : (pad2 d ++ "." ++ pad2 m ++ "." ++ pad4 y).toList
      = (pad2 d).toList ++ '.' :: ((pad2 m).toList ++ '.' :: (pad4 y).toList) := by
    show (pad2 d ++ "." ++ pad2 m ++ "." ++ pad4 y).data = _
    rw [string_data_append, string_data_append, string_data_append, string_data_append]
    simp
  simp only [parseDMY, hdata]
  rw [splitDots_append _ _ (pad2_nodot d), splitDots_append _ _ (pad2_nodot m),
    splitDots_nodot _ (pad4_nodot y)]
  simp only [dayFormOk_pad2 d hd1 hd31, monthFormOk_pad2 m hm1 hm2, yearFormOk_pad4 y,
    Bool.and_self, Bool.true_and, if_true]
  rw [natOfDigits_pad2 d (by omega), natOfDigits_pad2 m (by omega), natOfDigits_pad4 y hy2]
  simp [hv]

/-! ## C9: round-trip of a valid zero-padded birthday string -/

/-- C9: for every real calendar date and its zero-padded `DD.MM.YYYY`
rendering `S`, `add_birthday S` succeeds, the stored value is the raw string
`S` itself, and the record's textual summary embeds exactly `S` as the
birthday. -/
theorem birthday_roundtrip_render (r : Record) (y m d : Nat) (S : String)
    (hv : validDate y m d = true)
    (hS : S = pad2 d ++ "." ++ pad2 m ++ "." ++ pad4 y) :
    r.add_birthday S = .ok { r with birthday := some S } ∧
    Record.render { r with birthday := some S } =
      "Контакт: " ++ r.name ++ ", телефони: " ++ phonesText r.phones ++
        ", день народження: " ++ S := by
  constructor
  · rw [Record.add_birthday, hS, mkBirthday, parseDMY_pad y m d hv]
  · rfl

/-- Witness for `birthday_roundtrip_render` at a concrete record and date. -/
theorem birthday_roundtrip_render_witness :
    (Record.mk "Olha" [] none).add_birthday "03.01.1990"
      = .ok (Record.mk "Olha" [] (some "03.01.1990")) ∧
    Record.render (Record.mk "Olha" [] (some "03.01.1990")) =
      "Контакт: " ++ "Olha" ++ ", телефони: " ++ phonesText [] ++
        ", день народження: " ++ "03.01.1990" :=
  birthday_roundtrip_render (Record.mk "Olha" [] none) 1990 1 3 "03.01.1990"
    (by decide) (by decide)

/-! ## Parser characterization -/

theorem joinDots_splitDots (l : List Char) : joinDots (splitDots l) = l := by
  induction l with
  | nil => rfl
  | cons c rest ih =>
    simp only [splitDots]
    obtain ⟨h, t, hht⟩ : ∃ h t, splitDots rest = h :: t := by
      rcases hsp : splitDots rest with _ | ⟨h, t⟩
      · exact absurd hsp (splitDots_ne_nil rest)
      · exact ⟨h, t, rfl⟩
    have ih' : joinDots (h :: t) = rest := hht ▸ ih
    by_cases hc : c = '.'
    · rw [if_pos hc, hht]
      simp only [joinDots, List.nil_append]
      rw [ih', hc]
    · rw [if_neg hc, hht]
      simp only [consHead]
      cases t with
      | nil =>
        simp only [joinDots] at ih' ⊢
        rw [ih']
      | cons u t2 =>
        simp only [joinDots] at ih' ⊢
        rw [List.cons_append, ih']

theorem dayFormOk_ascii (l : List Char) (h : dayFormOk l = true) :
    ∀ c ∈ l, isAsciiDigitChar c = true := by
  cases l with
  | nil => simp [dayFormOk] at h
  | cons c1 t =>
    cases t with
    | nil =>
      simp only [dayFormOk, Bool.and_eq_true] at h
      intro c hc
      simp only [List.mem_singleton] at hc
      rw [hc]
      exact h.1
    | cons c2 t2 =>
      cases t2 with
      | nil =>
        simp only [dayFormOk, Bool.and_eq_true] at h
        intro c hc
        simp only [List.mem_cons, List.not_mem_nil, or_false] at hc
        rcases hc with rfl | rfl
        · exact h.1.1.1
        · exact h.1.1.2
      | cons c3 t3 => simp [dayFormOk] at h

theorem monthFormOk_ascii (l : List Char) (h : monthFormOk l = true) :
    ∀ c ∈ l, isAsciiDigitChar c = true := by
  cases l with
  | nil => simp [monthFormOk] at h
  | cons c1 t =>
    cases t with
    | nil =>
      simp only [monthFormOk, Bool.and_eq_true] at h
      intro c hc
      simp only [List.mem_singleton] at hc
      rw [hc]
      exact h.1
    | cons c2 t2 =>
      cases t2 with
      | nil =>
        simp only [monthFormOk, Bool.and_eq_true] at h
        intro c hc
        simp only [List.mem_cons, List.not_mem_nil, or_false] at hc
        rcases hc with rfl | rfl
        · exact h.1.1.1
        · exact h.1.1.2
      | cons c3 t3 => simp [monthFormOk] at h

theorem yearFormOk_ascii (l : List Char) (h : yearFormOk l = true) :
    ∀ c ∈ l, isAsciiDigitChar c = true := by
  simp only [yearFormOk, Bool.and_eq_true] at h
  exact fun c hc => List.all_eq_true.mp h.2 c hc

theorem parseDMY_isSome_iff (s : String) :
    (parseDMY s).isSome = true ↔
      ∃ dp mp yp : List Char,
        s.toList = dp ++ '.' :: (mp ++ '.' :: yp) ∧
        dayFormOk dp = true ∧ monthFormOk mp = true ∧ yearFormOk yp = true ∧
        validDate (natOfDigits yp) (natOfDigits mp) (natOfDigits dp) = true := by
  constructor
  · intro h
    rw [parseDMY] at h
    rcases hsp : splitDots s.toList with _ | ⟨dp, tl⟩
    · rw [hsp] at h; simp at h
    rcases tl with _ | ⟨mp, tl2⟩
    · rw [hsp] at h; simp at h
    rcases tl2 with _ | ⟨yp, tl3⟩
    · rw [hsp] at h; simp at h
    rcases tl3 with _ | ⟨zp, tl4⟩
    · -- the three-segment case; reduce the match definitionally
      rw [hsp] at h
      have h2 : (if (dayFormOk dp && monthFormOk mp && yearFormOk yp) = true then
          (if validDate (natOfDigits yp) (natOfDigits mp) (natOfDigits dp) = true then
            some (⟨natOfDigits yp, natOfDigits mp, natOfDigits dp⟩ : Date) else none)
          else none).isSome = true := h
      rcases hform : (dayFormOk dp && monthFormOk mp && yearFormOk yp) with _ | _
      · rw [hform] at h2; simp at h2
      · rw [hform] at h2
        simp only [Bool.and_eq_true] at hform
        rcases hvd : validDate (natOfDigits yp) (natOfDigits mp) (natOfDigits dp) with _ | _
        · rw [hvd] at h2; simp at h2
        · refine ⟨dp, mp, yp, ?_, hform.1.1, hform.1.2, hform.2, hvd⟩
          have hj := joinDots_splitDots s.toList
          rw [hsp] at hj
          simp only [joinDots] at hj
          exact hj.symm
    · rw [hsp] at h; simp at h
  · rintro ⟨dp, mp, yp, hsl, hd, hm, hy, hv⟩
    have hdp : ∀ c ∈ dp, c ≠ '.' := fun c hc => ascii_ne_dot c (dayFormOk_ascii dp hd c hc)
    have hmp : ∀ c ∈ mp, c ≠ '.' := fun c hc => ascii_ne_dot c (monthFormOk_ascii mp hm c hc)
    have hyp : ∀ c ∈ yp, c ≠ '.' := fun c hc => ascii_ne_dot c (yearFormOk_ascii yp hy c hc)
    rw [parseDMY, hsl, splitDots_append _ _ hdp, splitDots_append _ _ hmp,
      splitDots_nodot _ hyp]
    simp [hd, hm, hy, hv]

/-! ## C5: the birthday validator and zero padding -/

/-- C5 counterexample: the claim says construction succeeds only for
zero-padded `DD.MM.YYYY` text, but `strptime("%d.%m.%Y")` accepts an
unpadded one-digit day: `Birthday` accepts `1.01.2024`, which does not match
the zero-padded pattern. -/
theorem birthday_accepts_unpadded :
    mkBirthday "1.01.2024" = .ok "1.01.2024" ∧ zeroPaddedForm "1.01.2024" = false := by
  decide

/-- C5 amended: for ASCII input, constructing a `Birthday` from `S` succeeds
iff `S` is day, dot, month, dot, year where the day is one or two digits with
value 1..31 (zero padding optional), the month one or two digits with value
1..12 (padding optional), the year exactly four digits, and the triple is a
real calendar date (years 1..9999; impossible dates rejected); on failure the
error is the `ValueError` with the birthday message. The stored value is the
raw string `S`. -/
theorem birthday_ok_iff_lenient_dmy (s : String)
    (_hascii : s.toList.all (fun c => c.toNat < 128) = true) :
    ((mkBirthday s).isOk = true ↔
      ∃ dp mp yp : List Char,
        s.toList = dp ++ '.' :: (mp ++ '.' :: yp) ∧
        dayFormOk dp = true ∧ monthFormOk mp = true ∧ yearFormOk yp = true ∧
        validDate (natOfDigits yp) (natOfDigits mp) (natOfDigits dp) = true) ∧
    (∀ v, mkBirthday s = .ok v → v = s) ∧
    ((mkBirthday s).isOk = false → mkBirthday s = .error (.valueError birthdayMsg)) := by
  rcases hp : parseDMY s with _ | bd
  · have hns : (parseDMY s).isSome = false := by rw [hp]; rfl
    simp only [mkBirthday, hp]
    refine ⟨⟨fun hf => ?_, fun hex => ?_⟩, fun v hv => ?_, fun _ => by trivial⟩
    · simp [Except.isOk, Except.toBool] at hf
    · have := (parseDMY_isSome_iff s).mpr hex
      rw [hns] at this
      exact absurd this (by decide)
    · exact absurd hv (by simp)
  · simp only [mkBirthday, hp]
    refine ⟨⟨fun _ => (parseDMY_isSome_iff s).mp (by rw [hp]; rfl), fun _ => by trivial⟩,
      fun v hv => (Except.ok.inj hv).symm, fun hf => ?_⟩
    simp [Except.isOk, Except.toBool] at hf

/-- Witness for `birthday_ok_iff_lenient_dmy` at a concrete leap-day
string. -/
theorem birthday_ok_iff_lenient_dmy_witness :
    (mkBirthday "29.02.2000").isOk = true :=
  (birthday_ok_iff_lenient_dmy "29.02.2000" (by decide)).1.mpr
    ⟨['2', '9'], ['0', '2'], ['2', '0', '0', '0'],
      by decide, by decide, by decide, by decide, by decide⟩

/-! ## Characterization of `get_upcoming_birthdays` -/

theorem processRecord_ok_some_iff (today : Date) (days : Int) (r : Record) (n ds : String) :
    processRecord today days r = .ok (some (n, ds)) ↔
      (r.name = n ∧ ∃ bs bd c, r.birthday = some bs ∧ parseDMY bs = some bd ∧
        nextOccurrence bd today = .ok c ∧ 0 ≤ dateSub c today ∧ dateSub c today ≤ days ∧
        pyFormatDMY (shiftWeekend c) = ds) := by
  rcases hb : r.birthday with _ | bs
  · simp [processRecord, hb]
  · rcases hp : parseDMY bs with _ | bd
    · simp [processRecord, hb, hp]
    · rcases hn : nextOccurrence bd today with e | c
      · simp [processRecord, hb, hp, hn]
      · simp only [processRecord, hb, hp, hn]
        split
        · rename_i hw
          constructor
          · intro h
            injection h with h
            injection h with h
            injection h with h1 h2
            exact ⟨h1, bs, bd, c, rfl, hp, hn, hw.1, hw.2, h2⟩
          · rintro ⟨h1, bs', bd', c', hbs, hp', hn', hw1, hw2, hfmt⟩
            cases Option.some.inj hbs
            rw [hp] at hp'
            cases Option.some.inj hp'
            rw [hn] at hn'
            cases Except.ok.inj hn'
            rw [h1, hfmt]
        · rename_i hw
          constructor
          · intro h
            simp at h
          · rintro ⟨h1, bs', bd', c', hbs, hp', hn', hw1, hw2, hfmt⟩
            cases Option.some.inj hbs
            rw [hp] at hp'
            cases Option.some.inj hp'
            rw [hn] at hn'
            cases Except.ok.inj hn'
            exact absurd ⟨hw1, hw2⟩ hw

theorem upcoming_mem (book : List Record) (days : Int) (today : Date)
    (res : List (String × String)) (h : get_upcoming_birthdays book days today = .ok res)
    (p : String × String) :
    p ∈ res ↔ ∃ r, r ∈ book ∧ processRecord today days r = .ok (some p) := by
  induction book generalizing res with
  | nil =>
    rw [get_upcoming_birthdays] at h
    cases Except.ok.inj h
    simp
  | cons r rest ih =>
    rw [get_upcoming_birthdays] at h
    rcases hr : processRecord today days r with e | o
    · rw [hr] at h
      simp at h
    · rw [hr] at h
      rcases hrest : get_upcoming_birthdays rest days today with e2 | res2
      · rw [hrest] at h
        simp at h
      · rw [hrest] at h
        have hres := Except.ok.inj h
        cases o with
        | none =>
          have hres2 : res2 = res := hres
          subst hres2
          rw [ih res2 hrest]
          constructor
          · rintro ⟨r', hm, hpr⟩
            exact ⟨r', List.mem_cons_of_mem _ hm, hpr⟩
          · rintro ⟨r', hm, hpr⟩
            rcases List.mem_cons.mp hm with rfl | hm2
            · rw [hr] at hpr
              simp at hpr
            · exact ⟨r', hm2, hpr⟩
        | some q =>
          have hres2 : q :: res2 = res := hres
          subst hres2
          rw [List.mem_cons, ih res2 hrest]
          constructor
          · rintro (rfl | ⟨r', hm, hpr⟩)
            · exact ⟨r, List.mem_cons_self r rest, by rw [hr]⟩
            · exact ⟨r', List.mem_cons_of_mem _ hm, hpr⟩
          · rintro ⟨r', hm, hpr⟩
            rcases List.mem_cons.mp hm with rfl | hm2
            · rw [hr] at hpr
              exact Or.inl (Option.some.inj (Except.ok.inj hpr)).symm
            · exact Or.inr ⟨r', hm2, hpr⟩

/-! ## C1: which window the inclusion test uses -/

/-- C1 counterexample: with `today = 01.01.2024` and `windowDays = 5`, a
contact whose next occurrence is Saturday 06.01.2024 is reported (with the
shifted Monday 08.01.2024) although the post-shift candidate of the claim
lies 7 days after `today`, outside the 5-day window: the code tests the
window on the PRE-shift date. -/
theorem upcoming_included_beyond_shifted_window :
    get_upcoming_birthdays [⟨"Alice", [], some "06.01.1990"⟩] 5 ⟨2024, 1, 1⟩
      = .ok [("Alice", "08.01.2024")] ∧
    parseDMY "06.01.1990" = some ⟨1990, 1, 6⟩ ∧
    dateSub (specCandidate ⟨1990, 1, 6⟩ ⟨2024, 1, 1⟩) ⟨2024, 1, 1⟩ = 7 ∧
    ¬((7 : Int) ≤ 5) := by
  refine ⟨by decide, by decide, by decide, by decide⟩

/-- C1 amended: a pair `(name, text)` is in the result of
`get_upcoming_birthdays` iff some record of the book carries that name and a
birthday whose next occurrence `c` (the PRE-shift candidate of lines 105-108)
satisfies `0 ≤ (c - today).days ≤ windowDays`; the reported text is the
`DD.MM.YYYY` rendering of the POST-shift date `shiftWeekend c`, which can lie
up to two days beyond `today + windowDays`. -/
theorem upcoming_mem_iff_preshift_window (book : List Record) (days : Int) (today : Date)
    (res : List (String × String)) (h : get_upcoming_birthdays book days today = .ok res)
    (n ds : String) :
    (n, ds) ∈ res ↔
      ∃ r, r ∈ book ∧ r.name = n ∧ ∃ bs bd c,
        r.birthday = some bs ∧ parseDMY bs = some bd ∧ nextOccurrence bd today = .ok c ∧
        0 ≤ dateSub c today ∧ dateSub c today ≤ days ∧
        pyFormatDMY (shiftWeekend c) = ds := by
  rw [upcoming_mem book days today res h (n, ds)]
  constructor
  · rintro ⟨r, hm, hpr⟩
    obtain ⟨h1, hrest⟩ := (processRecord_ok_some_iff today days r n ds).mp hpr
    exact ⟨r, hm, h1, hrest⟩
  · rintro ⟨r, hm, h1, hrest⟩
    exact ⟨r, hm, (processRecord_ok_some_iff today days r n ds).mpr ⟨h1, hrest⟩⟩

/-- Witness for `upcoming_mem_iff_preshift_window` at a concrete book. -/
theorem upcoming_mem_iff_preshift_window_witness :
    ("Alice", "08.01.2024") ∈ [("Alice", "08.01.2024")] :=
  (upcoming_mem_iff_preshift_window [⟨"Alice", [], some "06.01.1990"⟩] 5 ⟨2024, 1, 1⟩
      [("Alice", "08.01.2024")] (by decide) "Alice" "08.01.2024").mpr
    ⟨⟨"Alice", [], some "06.01.1990"⟩, by decide, rfl,
      "06.01.1990", ⟨1990, 1, 6⟩, ⟨2024, 1, 6⟩,
      rfl, by decide, by decide, by decide, by decide, by decide⟩

/-! ## February 29 and the year-replace step -/

theorem daysInMonth_feb_le_29 (y : Nat) : daysInMonth y 2 ≤ 29 := by
  rw [daysInMonth, if_pos rfl]
  split <;> omega

theorem daysInMonth_ge_28 (y m : Nat) : 28 ≤ daysInMonth y m := by
  rw [daysInMonth]
  split
  · split <;> omega
  · split <;> omega

theorem daysInMonth_feb_nonleap (y : Nat) (h : isLeap y = false) : daysInMonth y 2 = 28 := by
  rw [daysInMonth, if_pos rfl, h]
  rfl

theorem daysInMonth_not_feb (y y2 m : Nat) (h : m ≠ 2) : daysInMonth y m = daysInMonth y2 m := by
  rw [daysInMonth, daysInMonth, if_neg h, if_neg h]

theorem parseDMY_validDate (s : String) (dt : Date) (h : parseDMY s = some dt) :
    validDate dt.year dt.month dt.day = true := by
  rw [parseDMY] at h
  rcases hsp : splitDots s.toList with _ | ⟨dp, tl⟩
  · rw [hsp] at h; simp at h
  rcases tl with _ | ⟨mp, tl2⟩
  · rw [hsp] at h; simp at h
  rcases tl2 with _ | ⟨yp, tl3⟩
  · rw [hsp] at h; simp at h
  rcases tl3 with _ | ⟨zp, tl4⟩
  · rw [hsp] at h
    have h2 : (if (dayFormOk dp && monthFormOk mp && yearFormOk yp) = true then
        (if validDate (natOfDigits yp) (natOfDigits mp) (natOfDigits dp) = true then
          some (⟨natOfDigits yp, natOfDigits mp, natOfDigits dp⟩ : Date) else none)
        else none) = some dt := h
    rcases hform : (dayFormOk dp && monthFormOk mp && yearFormOk yp) with _ | _
    · rw [hform] at h2; simp at h2
    · rw [hform] at h2
      simp only [if_pos] at h2
      rcases hvd : validDate (natOfDigits yp) (natOfDigits mp) (natOfDigits dp) with _ | _
      · rw [hvd] at h2; simp at h2
      · rw [hvd] at h2
        simp only [if_pos] at h2
        have h3 := Option.some.inj h2
        subst h3
        exact hvd
  · rw [hsp] at h; simp at h

/-- One loop step for a record whose stored birthday parses to February 29:
with a non-leap current year, `replace(year=today.year)` raises the
day-out-of-range `ValueError`. -/
theorem processRecord_of_hasFeb29 (today : Date) (days : Int) (r : Record)
    (hleap : isLeap today.year = false) (hy1 : 1 ≤ today.year) (hy2 : today.year ≤ 9999)
    (hf : hasFeb29 r = true) :
    processRecord today days r = .error (.valueError replaceMsg) := by
  rcases hb : r.birthday with _ | bs
  · simp [hasFeb29, hb] at hf
  · rcases hp : parseDMY bs with _ | bd
    · simp [hasFeb29, hb, hp] at hf
    · simp only [hasFeb29, hb, hp, Bool.and_eq_true, beq_iff_eq] at hf
      have hrep : replaceYear bd today.year = .error (.valueError replaceMsg) := by
        rw [replaceYear, if_neg (by omega : ¬(today.year < 1 ∨ 9999 < today.year)),
          if_pos (by rw [hf.1, hf.2, daysInMonth_feb_nonleap today.year hleap]; omega)]
      have hno : nextOccurrence bd today = .error (.valueError replaceMsg) := by
        rw [nextOccurrence, hrep]
      simp [processRecord, hb, hp, hno]

/-- One loop step for a record whose stored birthday parses to anything other
than February 29: both `replace` calls succeed and no exception escapes. -/
theorem processRecord_ok_of_not_feb29 (today : Date) (days : Int) (r : Record)
    (bs : String) (bd : Date)
    (hy1 : 1 ≤ today.year) (hy2 : today.year + 1 ≤ 9999)
    (hb : r.birthday = some bs) (hp : parseDMY bs = some bd)
    (hnf : ¬(bd.month = 2 ∧ bd.day = 29)) :
    ∃ o, processRecord today days r = .ok o := by
  have hv := parseDMY_validDate bs bd hp
  simp only [validDate, Bool.and_eq_true, decide_eq_true_eq] at hv
  obtain ⟨⟨⟨⟨⟨hby1, hby2⟩, hbm1⟩, hbm2⟩, hbd1⟩, hbd2⟩ := hv
  have hdm : ∀ y2 : Nat, bd.day ≤ daysInMonth y2 bd.month := by
    intro y2
    by_cases hm2 : bd.month = 2
    · have hne29 : bd.day ≠ 29 := fun hc => hnf ⟨hm2, hc⟩
      rw [hm2] at hbd2 ⊢
      have h29 := daysInMonth_feb_le_29 bd.year
      have h28 := daysInMonth_ge_28 y2 2
      omega
    · exact (daysInMonth_not_feb bd.year y2 bd.month hm2) ▸ hbd2
  have hr1 : replaceYear bd today.year = .ok ⟨today.year, bd.month, bd.day⟩ := by
    have := hdm today.year
    rw [replaceYear, if_neg (by omega : ¬(today.year < 1 ∨ 9999 < today.year)),
      if_neg (by omega : ¬(daysInMonth today.year bd.month < bd.day))]
  have hno : ∃ c, nextOccurrence bd today = .ok c := by
    rcases hlt : dateLt ⟨today.year, bd.month, bd.day⟩ today with _ | _
    · exact ⟨⟨today.year, bd.month, bd.day⟩, by simp [nextOccurrence, hr1, hlt]⟩
    · have hrep2 : replaceYear ⟨today.year, bd.month, bd.day⟩ (today.year + 1)
          = .ok ⟨today.year + 1, bd.month, bd.day⟩ := by
        rw [replaceYear,
          if_neg (by omega : ¬(today.year + 1 < 1 ∨ 9999 < today.year + 1)),
          if_neg (by show ¬(daysInMonth (today.year + 1) bd.month < bd.day)
                     have := hdm (today.year + 1)
                     omega)]
      exact ⟨⟨today.year + 1, bd.month, bd.day⟩, by simp [nextOccurrence, hr1, hlt, hrep2]⟩
  rcases hno with ⟨c, hc⟩
  by_cases hw : 0 ≤ dateSub c today ∧ dateSub c today ≤ days
  · exact ⟨some (r.name, pyFormatDMY (shiftWeekend c)), by simp [processRecord, hb, hp, hc, hw]⟩
  · exact ⟨none, by simp [processRecord, hb, hp, hc, hw]⟩

/-! ## C10: a February 29 birthday in a non-leap current year aborts the call -/

/-- C10: for every book holding at least one record whose stored birthday
parses to February 29 (necessarily of a leap year), every window size, and
every `today` with a non-leap year in 1..9998 whose records all carry
parseable birthdays, `get_upcoming_birthdays` raises the day-out-of-range
`ValueError` of the replace-year step: no result list is produced for any
contact, and the February 29 contact is neither shifted nor silently
skipped. -/
theorem feb29_nonleap_raises (book : List Record) (days : Int) (today : Date)
    (hleap : isLeap today.year = false) (hy1 : 1 ≤ today.year) (hy2 : today.year ≤ 9998)
    (hall : ∀ r ∈ book, Option.all (fun bs => (parseDMY bs).isSome) r.birthday = true)
    (hex : ∃ r ∈ book, hasFeb29 r = true) :
    get_upcoming_birthdays book days today = .error (.valueError replaceMsg) := by
  revert hall hex
  induction book with
  | nil =>
    intro hall hex
    rcases hex with ⟨r, hm, _⟩
    exact absurd hm (List.not_mem_nil r)
  | cons r rest ih =>
    intro hall hex
    by_cases hf : hasFeb29 r = true
    · have hpr := processRecord_of_hasFeb29 today days r hleap hy1 (by omega) hf
      simp [get_upcoming_birthdays, hpr]
    · have hok : ∃ o, processRecord today days r = .ok o := by
        rcases hb : r.birthday with _ | bs
        · exact ⟨none, by simp [processRecord, hb]⟩
        · have hbp := hall r (List.mem_cons_self r rest)
          rw [hb] at hbp
          have hsome : (parseDMY bs).isSome = true := hbp
          rcases hps : parseDMY bs with _ | bd
          · rw [hps] at hsome
            exact absurd hsome (by decide)
          · refine processRecord_ok_of_not_feb29 today days r bs bd hy1 (by omega) hb hps ?_
            intro hc
            apply hf
            simp [hasFeb29, hb, hps, hc.1, hc.2]
      rcases hok with ⟨o, ho⟩
      have hrest : get_upcoming_birthdays rest days today = .error (.valueError replaceMsg) := by
        apply ih
        · exact fun r2 h2 => hall r2 (List.mem_cons_of_mem _ h2)
        · rcases hex with ⟨r2, hm2, hf2⟩
          rcases List.mem_cons.mp hm2 with rfl | hm3
          · exact absurd hf2 hf
          · exact ⟨r2, hm3, hf2⟩
      simp [get_upcoming_birthdays, ho, hrest]

/-- Witness for `feb29_nonleap_raises` at a concrete one-record book. -/
theorem feb29_nonleap_raises_witness :
    get_upcoming_birthdays [⟨"Bob", [], some "29.02.2000"⟩] 7 ⟨2025, 1, 1⟩
      = .error (.valueError replaceMsg) :=
  feb29_nonleap_raises [⟨"Bob", [], some "29.02.2000"⟩] 7 ⟨2025, 1, 1⟩
    (by decide) (by decide) (by decide) (by decide)
    ⟨⟨"Bob", [], some "29.02.2000"⟩, by decide, by decide⟩
